import Mathlib

/-!
# Shallow embedding of the REST advertisement service (FastAPI + auth)

This file embeds the data model, the credential/token subsystem, the CRUD
layer and the HTTP endpoint handlers of the repository (src/models.py,
src/schemas.py, src/auth.py, src/crud.py, src/main.py) as executable Lean
definitions, and proves the specification claims about them.

Modelling conventions:
* The database session is modelled as an explicit list of records
  (`List User`, `List Advertisement`); each operation returns its result
  together with the new list.
* Environment-supplied values (the bcrypt salt, the autoincremented id,
  the current UTC time in seconds) are explicit parameters.
* Machine floats (`price`) are modelled as `Rat`.
* Exceptions raised by endpoint handlers (`HTTPException`) are modelled
  with `Except HTTPException`.
* The external bcrypt primitive is modelled by its contract: a hash is an
  abstract record of the (at most 72) input bytes and the salt, and
  `bcrypt.checkpw` compares the candidate bytes with the hashed bytes.
  The 72-byte truncation logic itself lives in src/auth.py and is embedded
  from the source.
* The external JWT library (python-jose) is modelled by a concrete
  invertible serialization of the claims map plus the signing secret; a
  decode with the wrong secret fails, as the HMAC signature check would.
-/

/-- UserRole enum of src/models.py / src/schemas.py: values "user", "admin". -/
inductive UserRole where
  | user
  | admin
deriving DecidableEq, Repr

/-- Serialization of `UserRole` as its lowercase string literal. -/
def UserRole.toStr : UserRole → String
  | .user => "user"
  | .admin => "admin"

/-! ## UTF-8 encoding (Python `str.encode('utf-8')`) -/

/-- UTF-8 encoding of a single Unicode code point, bytes as `Nat < 256`. -/
def utf8EncodeChar (c : Char) : List Nat :=
  let v := c.toNat
  if v < 0x80 then [v]
  else if v < 0x800 then [0xC0 + v / 0x40, 0x80 + v % 0x40]
  else if v < 0x10000 then
    [0xE0 + v / 0x1000, 0x80 + (v / 0x40) % 0x40, 0x80 + v % 0x40]
  else
    [0xF0 + v / 0x40000, 0x80 + (v / 0x1000) % 0x40,
     0x80 + (v / 0x40) % 0x40, 0x80 + v % 0x40]

/-- Python `s.encode('utf-8')`: the UTF-8 byte sequence of a string. -/
def utf8Bytes (s : String) : List Nat :=
  s.data.flatMap utf8EncodeChar

/-! ## bcrypt model (external primitive, by its contract) -/

/-- Abstract model of an encoded bcrypt hash string: it determines the
hashed input bytes and the salt. `bcrypt.hashpw` is injective in the input
bytes for a fixed salt, and `bcrypt.checkpw` recomputes the hash from the
candidate bytes and the stored salt and compares. -/
structure BcryptHash where
  input : List Nat
  salt : Nat
deriving DecidableEq, Repr

/-- Model of `bcrypt.hashpw(password_bytes, salt)`. -/
def bcrypt_hashpw (b : List Nat) (salt : Nat) : BcryptHash := ⟨b, salt⟩

/-- Model of `bcrypt.checkpw(password_bytes, hashed)`: rehash with the
stored salt and compare. -/
def bcrypt_checkpw (b : List Nat) (h : BcryptHash) : Bool :=
  bcrypt_hashpw b h.salt == h

/-! ## src/auth.py: password hashing -/

/-- src/auth.py `safe_bcrypt_hash`: encode as UTF-8, truncate to the first
72 bytes when longer, then bcrypt-hash with a fresh salt (explicit here). -/
def safe_bcrypt_hash (password : String) (salt : Nat) : BcryptHash :=
  let password_bytes := utf8Bytes password
  let password_bytes :=
    if password_bytes.length > 72 then password_bytes.take 72 else password_bytes
  bcrypt_hashpw password_bytes salt

/-- src/auth.py `safe_bcrypt_verify`: encode as UTF-8, truncate to the first
72 bytes when longer, then bcrypt-check against the stored hash. -/
def safe_bcrypt_verify (plain_password : String) (hashed_password : BcryptHash) : Bool :=
  let password_bytes := utf8Bytes plain_password
  let password_bytes :=
    if password_bytes.length > 72 then password_bytes.take 72 else password_bytes
  bcrypt_checkpw password_bytes hashed_password

/-- src/auth.py `verify_password`. -/
def verify_password (plain_password : String) (hashed_password : BcryptHash) : Bool :=
  safe_bcrypt_verify plain_password hashed_password

/-- src/auth.py `get_password_hash`. -/
def get_password_hash (password : String) (salt : Nat) : BcryptHash :=
  safe_bcrypt_hash password salt

/-! ## JWT claims model (external python-jose library, by its contract) -/

/-- A JSON claim value as used by this service's tokens: strings
(`sub`, `role`) and numbers (`user_id`, `exp`). -/
inductive ClaimValue where
  | str (s : String)
  | num (n : Nat)
deriving DecidableEq, Repr

/-- A claims mapping, with Python-dict lookup semantics (first entry wins). -/
abbrev Claims := List (String × ClaimValue)

/-- Python `payload.get(k)`: first entry for key `k`, if any. -/
def lookupClaim (c : Claims) (k : String) : Option ClaimValue :=
  (c.find? (fun p => p.1 == k)).map (·.2)

/-- Little-endian binary digits, fuelled so that the recursion is
structural (the fuel argument bounds the value). -/
def natToBitsGo : Nat → Nat → List Char
  | _, 0 => []
  | 0, _ + 1 => []
  | fuel + 1, n + 1 =>
    (if (n + 1) % 2 = 1 then '1' else '0') :: natToBitsGo fuel ((n + 1) / 2)

/-- Little-endian binary digits of a natural number, as characters. -/
def natToBits (n : Nat) : List Char := natToBitsGo n n

/-- Inverse of `natToBits`. -/
def bitsToNat : List Char → Nat
  | [] => 0
  | c :: t => (if c = '1' then 1 else 0) + 2 * bitsToNat t

/-- Characters allowed in a serialized binary number. -/
def isBit (c : Char) : Bool := c = '0' || c = '1'

/-- Parse a `natToBits`-serialized number terminated by ':'. -/
def parseNat (l : List Char) : Option (Nat × List Char) :=
  let bits := l.takeWhile isBit
  match l.drop bits.length with
  | ':' :: r => some (bitsToNat bits, r)
  | _ => none

/-- Length-prefixed serialization of a string. -/
def encStr (s : String) : List Char := natToBits s.data.length ++ ':' :: s.data

/-- Parse a length-prefixed string. -/
def parseStr (l : List Char) : Option (String × List Char) :=
  match parseNat l with
  | none => none
  | some (n, r) => some (⟨r.take n⟩, r.drop n)

/-- Serialization of a claim value, tagged by kind. -/
def encVal : ClaimValue → List Char
  | .str s => 's' :: encStr s
  | .num n => 'n' :: (natToBits n ++ [':'])

/-- Parse a claim value. -/
def parseVal (l : List Char) : Option (ClaimValue × List Char) :=
  match l with
  | 's' :: r => (parseStr r).map (fun p => (.str p.1, p.2))
  | 'n' :: r => (parseNat r).map (fun p => (.num p.1, p.2))
  | _ => none

/-- Serialization of one claims entry. -/
def encPair (p : String × ClaimValue) : List Char := encStr p.1 ++ encVal p.2

/-- Parse `n` claims entries. -/
def parsePairs : Nat → List Char → Option (Claims × List Char)
  | 0, l => some ([], l)
  | n + 1, l =>
    match parseStr l with
    | none => none
    | some (k, r1) =>
      match parseVal r1 with
      | none => none
      | some (v, r2) =>
        match parsePairs n r2 with
        | none => none
        | some (rest, r3) => some ((k, v) :: rest, r3)

/-- Count-prefixed serialization of a claims mapping. -/
def encClaims (c : Claims) : List Char :=
  natToBits c.length ++ ':' :: c.flatMap encPair

/-- Parse a claims mapping. -/
def parseClaims (l : List Char) : Option (Claims × List Char) :=
  match parseNat l with
  | none => none
  | some (n, r) => parsePairs n r

/-- Model of `jwt.encode(claims, secret, algorithm)`: a token string that
determines the claims and the signing secret (the HMAC-SHA256 signature
binds the payload to the secret). -/
def jwtEncode (c : Claims) (secret : String) : String :=
  ⟨encClaims c ++ encStr secret⟩

/-- Recover the claims and the signing secret from a token string. -/
def jwtDecodeRaw (token : String) : Option (Claims × String) :=
  match parseClaims token.data with
  | none => none
  | some (c, r) =>
    match parseStr r with
    | none => none
    | some (sec, r2) => if r2.isEmpty then some (c, sec) else none

/-- The failure modes of `jose.jwt.decode`, all subclasses of `JWTError`. -/
inductive JWTError where
  | malformed
  | invalidSignature
  | expired
  | claimsError
deriving DecidableEq, Repr

/-- Model of `jose.jwt.decode(token, secret, algorithms)`: fails on a
malformed token, on a signature made with a different secret, and on an
`exp` claim in the past; otherwise returns the claims mapping. -/
def jwt_decode (token secret : String) (now : Nat) : Except JWTError Claims :=
  match jwtDecodeRaw token with
  | none => .error .malformed
  | some (c, sec) =>
    if sec ≠ secret then .error .invalidSignature
    else
      match lookupClaim c "exp" with
      | some (.num e) => if e < now then .error .expired else .ok c
      | some (.str _) => .error .claimsError
      | none => .ok c

/-! ## src/auth.py: token issuance and verification -/

/-- src/auth.py `SECRET_KEY` (the hardcoded fallback used when the
environment variable is absent). -/
def SECRET_KEY : String := "Tm9Y0-QugrOVirWQ-kplU2sdDwprIFFeSvZUJV__r2A"

/-- src/auth.py `ACCESS_TOKEN_EXPIRE_HOURS`. -/
def ACCESS_TOKEN_EXPIRE_HOURS : Nat := 48

/-- src/auth.py `create_access_token`: copies the claims, adds an `exp`
claim at now + the override when given (and truthy, i.e. nonzero), else
now + 48 hours, and signs with `SECRET_KEY`. Times are UTC seconds. -/
def create_access_token (data : Claims) (expires_delta : Option Nat) (now : Nat) : String :=
  let expire :=
    match expires_delta with
    | some d => if d ≠ 0 then now + d else now + ACCESS_TOKEN_EXPIRE_HOURS * 3600
    | none => now + ACCESS_TOKEN_EXPIRE_HOURS * 3600
  jwtEncode (("exp", .num expire) :: data) SECRET_KEY

/-- src/auth.py `verify_token`: decode with `SECRET_KEY`; any `JWTError`
is caught and turned into an absent result. -/
def verify_token (token : String) (now : Nat) : Option Claims :=
  match jwt_decode token SECRET_KEY now with
  | .ok payload => some payload
  | .error _ => none

/-! ## src/models.py: persistent records (a DB table as a list of rows) -/

/-- src/models.py `User` row. `created_at` is UTC seconds. -/
structure User where
  id : Nat
  username : String
  email : String
  hashed_password : BcryptHash
  role : UserRole
  created_at : Nat
deriving DecidableEq, Repr

/-- src/models.py `Advertisement` row. `price` models the Python float. -/
structure Advertisement where
  id : Nat
  title : String
  description : String
  price : Rat
  created_at : Nat
  owner_id : Nat
deriving DecidableEq, Repr

/-! ## src/schemas.py: request/response shapes the claims need -/

/-- src/schemas.py `UserCreate` (validated body). -/
structure UserCreate where
  username : String
  email : String
  password : String
  role : UserRole
deriving DecidableEq, Repr

/-- src/schemas.py `UserUpdate`: `none` = field not supplied
(`model_dump(exclude_unset=True)` drops it). -/
structure UserUpdate where
  username : Option String
  email : Option String
  password : Option String
deriving DecidableEq, Repr

/-- src/schemas.py `UserResponse`: shaped from a stored `User`; carries no
hashed-password field. -/
structure UserResponse where
  username : String
  email : String
  id : Nat
  role : UserRole
  created_at : Nat
deriving DecidableEq, Repr

/-- FastAPI `response_model=UserResponse` shaping of a stored record. -/
def toUserResponse (u : User) : UserResponse :=
  ⟨u.username, u.email, u.id, u.role, u.created_at⟩

/-- src/schemas.py `AdvertisementUpdate`: `none` = field not supplied. -/
structure AdvertisementUpdate where
  title : Option String
  description : Option String
  price : Option Rat
deriving DecidableEq, Repr

/-- src/schemas.py `LoginRequest`. -/
structure LoginRequest where
  username : String
  password : String
deriving DecidableEq, Repr

/-- src/schemas.py `TokenResponse`. -/
structure TokenResponse where
  access_token : String
  token_type : String
deriving DecidableEq, Repr

/-- FastAPI `HTTPException(status_code, detail)`. -/
structure HTTPException where
  status_code : Nat
  detail : String
deriving DecidableEq, Repr

/-! ## src/crud.py: data access over the list-of-rows database -/

/-- src/crud.py `get_user_by_id`: `.filter(User.id == user_id).first()`. -/
def get_user_by_id (db : List User) (user_id : Nat) : Option User :=
  db.find? (fun u => u.id == user_id)

/-- src/crud.py `get_user_by_username`. -/
def get_user_by_username (db : List User) (username : String) : Option User :=
  db.find? (fun u => u.username == username)

/-- Replace the first row matching the predicate (the ORM mutates the one
object returned by `.first()` and flushes it by primary key). -/
def replaceFirst {α : Type} (p : α → Bool) (a : α) : List α → List α
  | [] => []
  | x :: t => if p x then a :: t else x :: replaceFirst p a t

/-- Remove the first row matching the predicate (`db.delete(obj)`). -/
def removeFirst {α : Type} (p : α → Bool) : List α → List α
  | [] => []
  | x :: t => if p x then t else x :: removeFirst p t

/-- The field-by-field `setattr` loop of src/crud.py `update_user`, after
`password` has been replaced by a freshly hashed `hashed_password`. -/
def applyUserUpdate (u : User) (upd : UserUpdate) (salt : Nat) : User :=
  let u := match upd.username with
    | some v => { u with username := v }
    | none => u
  let u := match upd.email with
    | some v => { u with email := v }
    | none => u
  match upd.password with
  | some p => { u with hashed_password := get_password_hash p salt }
  | none => u

/-- src/crud.py `update_user`: look up by id; if found, apply exactly the
supplied fields (hashing a supplied password) and persist. Returns the
refreshed row and the new table. -/
def crud_update_user (db : List User) (user_id : Nat) (user_update : UserUpdate)
    (salt : Nat) : Option User × List User :=
  match get_user_by_id db user_id with
  | none => (none, db)
  | some u =>
    let u' := applyUserUpdate u user_update salt
    (some u', replaceFirst (fun x => x.id == user_id) u' db)

/-- src/crud.py `authenticate_user`: look up by username; absent if not
found or the password does not verify against the stored hash. -/
def authenticate_user (db : List User) (username password : String) : Option User :=
  match get_user_by_username db username with
  | none => none
  | some user =>
    if verify_password password user.hashed_password then some user else none

/-- src/crud.py `create_user`: hash the password and persist a new row
(id and creation time are generated by the database engine, explicit
parameters here). -/
def crud_create_user (db : List User) (user : UserCreate) (newId : Nat)
    (now : Nat) (salt : Nat) : User × List User :=
  let db_user : User :=
    ⟨newId, user.username, user.email, get_password_hash user.password salt,
     user.role, now⟩
  (db_user, db ++ [db_user])

/-- src/crud.py `get_advertisement`. -/
def get_advertisement (db : List Advertisement) (advertisement_id : Nat) :
    Option Advertisement :=
  db.find? (fun a => a.id == advertisement_id)

/-- The `setattr` loop of src/crud.py `update_advertisement`. -/
def applyAdUpdate (a : Advertisement) (upd : AdvertisementUpdate) : Advertisement :=
  let a := match upd.title with
    | some v => { a with title := v }
    | none => a
  let a := match upd.description with
    | some v => { a with description := v }
    | none => a
  match upd.price with
  | some v => { a with price := v }
  | none => a

/-- src/crud.py `update_advertisement`. -/
def crud_update_advertisement (db : List Advertisement) (advertisement_id : Nat)
    (advertisement_update : AdvertisementUpdate) :
    Option Advertisement × List Advertisement :=
  match get_advertisement db advertisement_id with
  | none => (none, db)
  | some a =>
    let a' := applyAdUpdate a advertisement_update
    (some a', replaceFirst (fun x => x.id == advertisement_id) a' db)

/-- src/crud.py `delete_advertisement`: remove the row if found; report
whether a deletion occurred. -/
def crud_delete_advertisement (db : List Advertisement) (advertisement_id : Nat) :
    Bool × List Advertisement :=
  match get_advertisement db advertisement_id with
  | none => (false, db)
  | some _ => (true, removeFirst (fun x => x.id == advertisement_id) db)

/-- Boolean substring test on character lists (SQLAlchemy
`column.contains(s)`, i.e. `LIKE '%s%'`, case-sensitive reference
behavior). -/
def isInfixB (needle : List Char) : List Char → Bool
  | [] => needle.isEmpty
  | c :: t => needle.isPrefixOf (c :: t) || isInfixB needle t

/-- src/crud.py `search_advertisements`: chained query filters. The
`title`/`description` filters are guarded by Python truthiness (skipped
when absent or empty), the price bounds by presence; `.contains` is a
substring match. -/
def search_advertisements (db : List Advertisement)
    (title description : Option String) (min_price max_price : Option Rat) :
    List Advertisement :=
  let query := db
  let query := match title with
    | some t => if t ≠ "" then query.filter (fun a => isInfixB t.data a.title.data) else query
    | none => query
  let query := match description with
    | some d => if d ≠ "" then query.filter (fun a => isInfixB d.data a.description.data) else query
    | none => query
  let query := match min_price with
    | some m => query.filter (fun a => m ≤ a.price)
    | none => query
  let query := match max_price with
    | some m => query.filter (fun a => a.price ≤ m)
    | none => query
  query

/-- The per-advertisement filter predicate as the specification states
it: `title` a case-sensitive substring match, `description` likewise,
`min_price`/`max_price` inclusive bounds on the price; an unsupplied
filter imposes no constraint. -/
def specAdMatches (title description : Option String)
    (min_price max_price : Option Rat) (a : Advertisement) : Bool :=
  (match title with
    | some t => isInfixB t.data a.title.data
    | none => true)
  && (match description with
    | some d => isInfixB d.data a.description.data
    | none => true)
  && (match min_price with
    | some m => decide (m ≤ a.price)
    | none => true)
  && (match max_price with
    | some m => decide (a.price ≤ m)
    | none => true)

/-! ## src/main.py: authentication resolution and endpoint handlers -/

/-- Worker for Python `str.split()`: walk the characters, accumulating the
current (reversed) token and emitting it at each whitespace run. -/
def pySplitGo : List Char → List Char → List String
  | [], acc => if acc.isEmpty then [] else [⟨acc.reverse⟩]
  | c :: rest, acc =>
    if c.isWhitespace then
      if acc.isEmpty then pySplitGo rest []
      else ⟨acc.reverse⟩ :: pySplitGo rest []
    else pySplitGo rest (c :: acc)

/-- Python `str.split()` with no argument: split on runs of whitespace,
discarding empty pieces (so leading/trailing/repeated whitespace yields no
empty tokens). -/
def pySplit (s : String) : List String := pySplitGo s.data []

/-- ASCII lowercasing, Python `str.lower()` on the scheme word. -/
def pyLower (s : String) : String := ⟨s.data.map Char.toLower⟩

/-- src/main.py `get_current_user`: resolve the optional identity from the
`Authorization` header. Absent header, a header that does not split into
exactly two whitespace-separated tokens, a first token other than
case-insensitive "bearer", a token failing verification, a payload without
`sub`, or an unknown username all resolve to no identity; otherwise the
stored user with that username is returned. -/
def get_current_user (db : List User) (authorization : Option String)
    (now : Nat) : Option User :=
  match authorization with
  | none => none
  | some header =>
    match pySplit header with
    | [scheme, token] =>
      if pyLower scheme ≠ "bearer" then none
      else
        match verify_token token now with
        | none => none
        | some payload =>
          match lookupClaim payload "sub" with
          | none => none
          | some subv =>
            match subv with
            | .str username => get_user_by_username db username
            | .num _ => none
    | _ => none

/-- src/main.py `create_user` endpoint (POST /user): 400 when the username
or the email is already registered, else create and return the shaped
`UserResponse`. Returns the response together with the new table. -/
def create_user_endpoint (db : List User) (user : UserCreate) (newId : Nat)
    (now : Nat) (salt : Nat) : Except HTTPException UserResponse × List User :=
  match get_user_by_username db user.username with
  | some _ => (.error ⟨400, "Username already registered"⟩, db)
  | none =>
    match db.find? (fun u => u.email == user.email) with
    | some _ => (.error ⟨400, "Email already registered"⟩, db)
    | none =>
      let (db_user, db') := crud_create_user db user newId now salt
      (.ok (toUserResponse db_user), db')

/-- src/main.py `update_advertisement` endpoint (PATCH
/advertisement/{id}), for an authenticated caller: 404 when the
advertisement does not exist, 403 when the caller neither owns it nor is
an admin, else apply the partial update. (The unreachable case where the
crud re-fetch fails would make FastAPI's response validation fail, a 500.) -/
def update_advertisement_endpoint (db : List Advertisement)
    (advertisement_id : Nat) (advertisement_update : AdvertisementUpdate)
    (current_user : User) : Except HTTPException Advertisement × List Advertisement :=
  match get_advertisement db advertisement_id with
  | none => (.error ⟨404, "Advertisement not found"⟩, db)
  | some db_advertisement =>
    if db_advertisement.owner_id ≠ current_user.id ∧ current_user.role ≠ .admin then
      (.error ⟨403, "Not enough permissions to update this advertisement"⟩, db)
    else
      match crud_update_advertisement db advertisement_id advertisement_update with
      | (some a', db') => (.ok a', db')
      | (none, db') => (.error ⟨500, "Internal Server Error"⟩, db')

/-- src/main.py `delete_advertisement` endpoint (DELETE
/advertisement/{id}), for an authenticated caller: 404 when missing, 403
when the caller neither owns it nor is an admin, else delete and return
the confirmation message (the second 404 arm re-checks the crud result). -/
def delete_advertisement_endpoint (db : List Advertisement)
    (advertisement_id : Nat) (current_user : User) :
    Except HTTPException String × List Advertisement :=
  match get_advertisement db advertisement_id with
  | none => (.error ⟨404, "Advertisement not found"⟩, db)
  | some db_advertisement =>
    if db_advertisement.owner_id ≠ current_user.id ∧ current_user.role ≠ .admin then
      (.error ⟨403, "Not enough permissions to delete this advertisement"⟩, db)
    else
      match crud_delete_advertisement db advertisement_id with
      | (true, db') => (.ok "Advertisement deleted successfully", db')
      | (false, db') => (.error ⟨404, "Advertisement not found"⟩, db')

/-- src/main.py `login` endpoint (POST /login): 401 when authentication
fails, else issue a token embedding `sub`, `user_id` and `role`, with
token type "bearer". -/
def login (db : List User) (login_data : LoginRequest) (now : Nat) :
    Except HTTPException TokenResponse :=
  match authenticate_user db login_data.username login_data.password with
  | none => .error ⟨401, "Incorrect username or password"⟩
  | some user =>
    let access_token := create_access_token
      [("sub", .str user.username), ("user_id", .num user.id),
       ("role", .str user.role.toStr)] none now
    .ok ⟨access_token, "bearer"⟩

/-! ## Roundtrip lemmas for the token serialization -/

theorem bitsToNat_natToBitsGo (fuel : Nat) :
    ∀ n, n ≤ fuel → bitsToNat (natToBitsGo fuel n) = n := by
  induction fuel with
  | zero => intro n h; interval_cases n; simp [natToBitsGo, bitsToNat]
  | succ f ih =>
    intro n h
    match n with
    | 0 => simp [natToBitsGo, bitsToNat]
    | m + 1 =>
      rw [natToBitsGo, bitsToNat,
        ih ((m + 1) / 2) (by omega)]
      by_cases h2 : (m + 1) % 2 = 1 <;> simp [h2] <;> omega

theorem bitsToNat_natToBits (n : Nat) : bitsToNat (natToBits n) = n :=
  bitsToNat_natToBitsGo n n (le_refl n)

theorem natToBitsGo_isBit (fuel : Nat) :
    ∀ n, ∀ c ∈ natToBitsGo fuel n, isBit c = true := by
  induction fuel with
  | zero => intro n c hc
            match n with
            | 0 => simp [natToBitsGo] at hc
            | m + 1 => simp [natToBitsGo] at hc
  | succ f ih =>
    intro n c hc
    match n with
    | 0 => simp [natToBitsGo] at hc
    | m + 1 =>
      rw [natToBitsGo] at hc
      rcases List.mem_cons.mp hc with h | h
      · subst h; by_cases h2 : (m + 1) % 2 = 1 <;> simp [h2, isBit]
      · exact ih ((m + 1) / 2) c h

theorem natToBits_isBit (n : Nat) : ∀ c ∈ natToBits n, isBit c = true :=
  natToBitsGo_isBit n n

theorem takeWhile_append_all {p : Char → Bool} {l : List Char} {x : Char}
    {r : List Char} (hl : ∀ c ∈ l, p c = true) (hx : p x = false) :
    (l ++ x :: r).takeWhile p = l := by
  induction l with
  | nil => simp [List.takeWhile, hx]
  | cons a t ih =>
    have ha : p a = true := hl a (List.mem_cons_self a t)
    simp only [List.cons_append, List.takeWhile, ha, List.append_eq]
    rw [ih (fun c hc => hl c (List.mem_cons_of_mem a hc))]

theorem parseNat_enc (n : Nat) (r : List Char) :
    parseNat (natToBits n ++ ':' :: r) = some (n, r) := by
  unfold parseNat
  rw [takeWhile_append_all (natToBits_isBit n) (by decide)]
  simp [List.drop_left, bitsToNat_natToBits]

theorem parseStr_enc (s : String) (r : List Char) :
    parseStr (encStr s ++ r) = some (s, r) := by
  unfold parseStr encStr
  rw [List.append_assoc, List.cons_append, parseNat_enc]
  simp [List.take_left, List.drop_left]

theorem parseVal_enc (v : ClaimValue) (r : List Char) :
    parseVal (encVal v ++ r) = some (v, r) := by
  cases v with
  | str s => simp [encVal, parseVal, parseStr_enc]
  | num n =>
    simp only [encVal, List.cons_append, parseVal, List.append_assoc,
      List.singleton_append]
    rw [parseNat_enc]
    simp

theorem parsePairs_enc (c : Claims) (r : List Char) :
    parsePairs c.length (c.flatMap encPair ++ r) = some (c, r) := by
  induction c generalizing r with
  | nil => simp [parsePairs]
  | cons p t ih =>
    obtain ⟨k, v⟩ := p
    simp only [List.length_cons, List.flatMap_cons, parsePairs, encPair,
      List.append_assoc]
    simp only [parseStr_enc, parseVal_enc, ih]

theorem jwtDecodeRaw_jwtEncode (c : Claims) (secret : String) :
    jwtDecodeRaw (jwtEncode c secret) = some (c, secret) := by
  unfold jwtDecodeRaw jwtEncode parseClaims encClaims
  simp only [List.append_assoc, List.cons_append]
  rw [show c.flatMap encPair ++ encStr secret
      = c.flatMap encPair ++ (encStr secret ++ []) by simp]
  simp only [parseNat_enc, parsePairs_enc, parseStr_enc, List.isEmpty_nil,
    if_true]

/-! ## Helper lemmas -/

/-- The truncation step is `take 72` on every input of at least 72 bytes. -/
theorem trunc_eq_take {b : List Nat} (h : 72 ≤ b.length) :
    (if b.length > 72 then b.take 72 else b) = b.take 72 := by
  by_cases h2 : b.length > 72
  · simp [h2]
  · have hlen : b.length = 72 := le_antisymm (not_lt.mp h2) h
    rw [if_neg h2, ← hlen, List.take_length]

/-- The empty needle is a substring of every string. -/
theorem isInfixB_nil (l : List Char) : isInfixB [] l = true := by
  cases l <;> simp [isInfixB, List.isPrefixOf]

/-- Verifying a default-expiry token: accepted with the claims plus the
computed `exp` exactly when that expiry is not in the past. -/
theorem verify_token_create_access (data : Claims) (now t : Nat) :
    verify_token (create_access_token data none now) t
      = if now + ACCESS_TOKEN_EXPIRE_HOURS * 3600 < t then none
        else some (("exp", .num (now + ACCESS_TOKEN_EXPIRE_HOURS * 3600)) :: data) := by
  have hdec : jwt_decode (create_access_token data none now) SECRET_KEY t
      = if now + ACCESS_TOKEN_EXPIRE_HOURS * 3600 < t
        then .error .expired
        else .ok (("exp", .num (now + ACCESS_TOKEN_EXPIRE_HOURS * 3600)) :: data) := by
    unfold jwt_decode create_access_token
    rw [jwtDecodeRaw_jwtEncode]
    simp [lookupClaim, List.find?]
  unfold verify_token
  rw [hdec]
  by_cases hlt : now + ACCESS_TOKEN_EXPIRE_HOURS * 3600 < t <;> simp [hlt]

/-- Looking up any key other than `exp` skips the added `exp` entry. -/
theorem lookupClaim_cons_ne {k : String} {v : ClaimValue} {c : Claims}
    {k' : String} (h : k ≠ k') :
    lookupClaim ((k, v) :: c) k' = lookupClaim c k' := by
  have hb : (k == k') = false := beq_eq_false_iff_ne.mpr h
  simp [lookupClaim, List.find?, hb]

/-! ## Claim C2 -/

/-- C2: for every password `p`, `verify_password p (get_password_hash p)`
holds; and for any two passwords whose UTF-8 encodings are at least 72
bytes long and agree on their first 72 bytes, verification of one against
the hash of the other also holds, because both hashing and verification
truncate to the first 72 UTF-8 bytes before the salted hash. -/
theorem password_hash_verify_truncation :
    (∀ (p : String) (salt : Nat),
      verify_password p (get_password_hash p salt) = true)
    ∧ (∀ (p1 p2 : String) (salt : Nat),
        72 ≤ (utf8Bytes p1).length → 72 ≤ (utf8Bytes p2).length →
        (utf8Bytes p1).take 72 = (utf8Bytes p2).take 72 →
        verify_password p2 (get_password_hash p1 salt) = true) := by
  constructor
  · intro p salt
    simp [verify_password, safe_bcrypt_verify, get_password_hash,
      safe_bcrypt_hash, bcrypt_checkpw, bcrypt_hashpw]
  · intro p1 p2 salt h1 h2 hpre
    simp only [verify_password, safe_bcrypt_verify, get_password_hash,
      safe_bcrypt_hash, bcrypt_checkpw, bcrypt_hashpw]
    rw [trunc_eq_take h1, trunc_eq_take h2, hpre]
    simp

/-- C2 witness: two concrete 73-byte passwords differing only in the last
byte hash and verify as equal. -/
theorem password_hash_verify_truncation_witness :
    verify_password "aaaaaaaaaaaaaaaaaaaaaaaaaaaaaaaaaaaaaaaaaaaaaaaaaaaaaaaaaaaaaaaaaaaaaaaaY"
      (get_password_hash "aaaaaaaaaaaaaaaaaaaaaaaaaaaaaaaaaaaaaaaaaaaaaaaaaaaaaaaaaaaaaaaaaaaaaaaaX" 7)
      = true :=
  password_hash_verify_truncation.2
    "aaaaaaaaaaaaaaaaaaaaaaaaaaaaaaaaaaaaaaaaaaaaaaaaaaaaaaaaaaaaaaaaaaaaaaaaX"
    "aaaaaaaaaaaaaaaaaaaaaaaaaaaaaaaaaaaaaaaaaaaaaaaaaaaaaaaaaaaaaaaaaaaaaaaaY"
    7 (by decide) (by decide) (by decide)

/-! ## Claim C9 -/

/-- C9: `verify_token` never propagates an error: whenever decoding fails
(malformed token, invalid signature, expired token, bad claims) it returns
an absent result, and whenever decoding succeeds it returns the decoded
claims mapping. -/
theorem verify_token_total (token : String) (now : Nat) :
    (∀ e : JWTError, jwt_decode token SECRET_KEY now = .error e →
      verify_token token now = none)
    ∧ (∀ c : Claims, jwt_decode token SECRET_KEY now = .ok c →
      verify_token token now = some c) := by
  constructor <;> intro x h <;> unfold verify_token <;> rw [h]

/-- C9 witness: a concrete malformed token is converted into an absent
result. -/
theorem verify_token_total_witness : verify_token "garbage" 0 = none :=
  (verify_token_total "garbage" 0).1 .malformed (by rfl)

/-! ## Claim C10 -/

/-- C10: supplying the empty string as the `title` (or `description`)
filter is the same as not supplying it: the code guards those filters by
Python truthiness, and the empty string is falsy. -/
theorem search_empty_string_filter_noop (db : List Advertisement)
    (title description : Option String) (min_price max_price : Option Rat) :
    search_advertisements db (some "") description min_price max_price
      = search_advertisements db none description min_price max_price
    ∧ search_advertisements db title (some "") min_price max_price
      = search_advertisements db title none min_price max_price := by
  constructor
  · rfl
  · cases title <;> rfl

/-! ## Claim C3 -/

/-- C3: a default-expiry token carrying a `sub` claim is accepted by
`verify_token` at any time before its expiry (creation time + 48 hours),
and the returned claims keep the `sub` value and every other input claim
and add the computed `exp`; a token whose `exp` lies in the past is
rejected with an absent result. -/
theorem token_roundtrip_expiry (data : Claims) (now t : Nat)
    (subv : ClaimValue) (hsub : lookupClaim data "sub" = some subv) :
    (t < now + ACCESS_TOKEN_EXPIRE_HOURS * 3600 →
      ∃ payload, verify_token (create_access_token data none now) t = some payload
        ∧ lookupClaim payload "sub" = some subv
        ∧ lookupClaim payload "exp"
            = some (.num (now + ACCESS_TOKEN_EXPIRE_HOURS * 3600))
        ∧ ∀ k, k ≠ "exp" → lookupClaim payload k = lookupClaim data k)
    ∧ (now + ACCESS_TOKEN_EXPIRE_HOURS * 3600 < t →
      verify_token (create_access_token data none now) t = none) := by
  constructor
  · intro hbefore
    refine ⟨("exp", .num (now + ACCESS_TOKEN_EXPIRE_HOURS * 3600)) :: data,
      ?_, ?_, ?_, ?_⟩
    · rw [verify_token_create_access, if_neg (by omega)]
    · rw [lookupClaim_cons_ne (by decide), hsub]
    · simp [lookupClaim, List.find?]
    · intro k hk
      exact lookupClaim_cons_ne (Ne.symm hk)
  · intro hafter
    rw [verify_token_create_access, if_pos hafter]

/-- C3 witness: a token for "alice" created at time 0 verifies at time 1
and yields the `sub` claim back; after the expiry it is rejected. -/
theorem token_roundtrip_expiry_witness :
    ∃ payload,
      verify_token (create_access_token [("sub", .str "alice")] none 0) 1
          = some payload
        ∧ lookupClaim payload "sub" = some (.str "alice") := by
  obtain ⟨payload, h1, h2, -⟩ :=
    (token_roundtrip_expiry [("sub", .str "alice")] 0 1 (.str "alice")
      (by rfl)).1 (by decide)
  exact ⟨payload, h1, h2⟩

/-! ## Claim C4 -/

/-- C4: POST /login fails with 401 and issues no token exactly when
`authenticate_user` is absent, i.e. when the username is unknown or the
password fails verification against the stored hash; otherwise it returns
a bearer `TokenResponse` whose token decodes to claims carrying the
authenticated user's username as `sub`, its id as `user_id` and its role
as `role`. -/
theorem login_behavior (db : List User) (login_data : LoginRequest) (now : Nat) :
    ((login db login_data now = .error ⟨401, "Incorrect username or password"⟩)
      ↔ authenticate_user db login_data.username login_data.password = none)
    ∧ (authenticate_user db login_data.username login_data.password = none
      ↔ (get_user_by_username db login_data.username = none
          ∨ ∃ u, get_user_by_username db login_data.username = some u
              ∧ verify_password login_data.password u.hashed_password = false))
    ∧ (∀ u, authenticate_user db login_data.username login_data.password = some u →
        ∃ tok, login db login_data now = .ok ⟨tok, "bearer"⟩
          ∧ ∃ payload, verify_token tok now = some payload
            ∧ lookupClaim payload "sub" = some (.str u.username)
            ∧ lookupClaim payload "user_id" = some (.num u.id)
            ∧ lookupClaim payload "role" = some (.str u.role.toStr)) := by
  refine ⟨?_, ?_, ?_⟩
  · unfold login
    cases h : authenticate_user db login_data.username login_data.password <;> simp
  · unfold authenticate_user
    cases h : get_user_by_username db login_data.username with
    | none => simp
    | some u =>
      simp only [h]
      constructor
      · intro hnone
        right
        refine ⟨u, rfl, ?_⟩
        by_cases hv : verify_password login_data.password u.hashed_password
        · simp [hv] at hnone
        · simpa using hv
      · intro hdisj
        rcases hdisj with hnone | ⟨u2, hu2, hv⟩
        · exact absurd hnone (by simp)
        · obtain rfl : u = u2 := Option.some.inj hu2
          simp [hv]
  · intro u hu
    unfold login
    rw [hu]
    refine ⟨_, rfl, ("exp", .num (now + ACCESS_TOKEN_EXPIRE_HOURS * 3600)) ::
      [("sub", .str u.username), ("user_id", .num u.id),
       ("role", .str u.role.toStr)], ?_, ?_, ?_, ?_⟩
    · rw [verify_token_create_access, if_neg (by omega)]
    · simp [lookupClaim, List.find?]
    · simp [lookupClaim, List.find?]
    · simp [lookupClaim, List.find?]

/-- C4 witness: with one stored user "alice", a wrong password yields the
401 error, and the correct password yields a bearer token whose claims
carry alice's username, id and role. -/
theorem login_behavior_witness :
    (login [⟨1, "alice", "alice@example.com", get_password_hash "secret1" 5, .user, 0⟩]
        ⟨"alice", "wrong-password"⟩ 0
      = .error ⟨401, "Incorrect username or password"⟩)
    ∧ ∃ tok,
      login [⟨1, "alice", "alice@example.com", get_password_hash "secret1" 5, .user, 0⟩]
          ⟨"alice", "secret1"⟩ 0 = .ok ⟨tok, "bearer"⟩ := by
  constructor
  · exact (login_behavior
      [⟨1, "alice", "alice@example.com", get_password_hash "secret1" 5, .user, 0⟩]
      ⟨"alice", "wrong-password"⟩ 0).1.mpr (by rfl)
  · obtain ⟨tok, htok, -⟩ := (login_behavior
      [⟨1, "alice", "alice@example.com", get_password_hash "secret1" 5, .user, 0⟩]
      ⟨"alice", "secret1"⟩ 0).2.2
      ⟨1, "alice", "alice@example.com", get_password_hash "secret1" 5, .user, 0⟩
      (by rfl)
    exact ⟨tok, htok⟩

/-! ## Claim C1 -/

/-- C1: identity resolution returns an absent identity (raising nothing)
whenever the Authorization header is absent, or does not split into
exactly two whitespace-separated tokens, or its first token is not the
case-insensitive literal "Bearer", or the token fails verification, or
the verified claims carry no `sub` (or a non-string `sub`, which no stored
username can equal), or no stored user has the `sub` username; otherwise
it returns the stored user with that username. -/
theorem get_current_user_resolution (db : List User)
    (authorization : Option String) (now : Nat) :
    (authorization = none → get_current_user db authorization now = none)
    ∧ (∀ header, authorization = some header → (pySplit header).length ≠ 2 →
        get_current_user db authorization now = none)
    ∧ (∀ header scheme token, authorization = some header →
        pySplit header = [scheme, token] → pyLower scheme ≠ "bearer" →
        get_current_user db authorization now = none)
    ∧ (∀ header scheme token, authorization = some header →
        pySplit header = [scheme, token] → verify_token token now = none →
        get_current_user db authorization now = none)
    ∧ (∀ header scheme token payload, authorization = some header →
        pySplit header = [scheme, token] → verify_token token now = some payload →
        lookupClaim payload "sub" = none →
        get_current_user db authorization now = none)
    ∧ (∀ header scheme token payload n, authorization = some header →
        pySplit header = [scheme, token] → verify_token token now = some payload →
        lookupClaim payload "sub" = some (.num n) →
        get_current_user db authorization now = none)
    ∧ (∀ header scheme token payload username, authorization = some header →
        pySplit header = [scheme, token] → verify_token token now = some payload →
        lookupClaim payload "sub" = some (.str username) →
        get_user_by_username db username = none →
        get_current_user db authorization now = none)
    ∧ (∀ header scheme token payload username u, authorization = some header →
        pySplit header = [scheme, token] → pyLower scheme = "bearer" →
        verify_token token now = some payload →
        lookupClaim payload "sub" = some (.str username) →
        get_user_by_username db username = some u →
        get_current_user db authorization now = some u
          ∧ u ∈ db ∧ u.username = username) := by
  refine ⟨?_, ?_, ?_, ?_, ?_, ?_, ?_, ?_⟩
  · intro h; rw [h]; rfl
  · intro header h hlen
    rw [h]
    unfold get_current_user
    dsimp only
    match hp : pySplit header with
    | [] => rfl
    | [s1] => rfl
    | [s1, s2] => rw [hp] at hlen; simp at hlen
    | s1 :: s2 :: s3 :: r => rfl
  · intro header scheme token h hp hlow
    rw [h]
    unfold get_current_user
    dsimp only
    rw [hp]
    dsimp only
    rw [if_pos hlow]
  · intro header scheme token h hp hv
    rw [h]
    unfold get_current_user
    dsimp only
    rw [hp]
    dsimp only
    by_cases hlow : pyLower scheme ≠ "bearer"
    · rw [if_pos hlow]
    · rw [if_neg hlow, hv]
  · intro header scheme token payload h hp hv hsub
    rw [h]
    unfold get_current_user
    dsimp only
    rw [hp]
    dsimp only
    by_cases hlow : pyLower scheme ≠ "bearer"
    · rw [if_pos hlow]
    · rw [if_neg hlow, hv]
      simp only [hsub]
  · intro header scheme token payload n h hp hv hsub
    rw [h]
    unfold get_current_user
    dsimp only
    rw [hp]
    dsimp only
    by_cases hlow : pyLower scheme ≠ "bearer"
    · rw [if_pos hlow]
    · rw [if_neg hlow, hv]
      simp only [hsub]
  · intro header scheme token payload username h hp hv hsub hu
    rw [h]
    unfold get_current_user
    dsimp only
    rw [hp]
    dsimp only
    by_cases hlow : pyLower scheme ≠ "bearer"
    · rw [if_pos hlow]
    · rw [if_neg hlow, hv]
      simp only [hsub, hu]
  · intro header scheme token payload username u h hp hlow hv hsub hu
    rw [h]
    unfold get_current_user
    dsimp only
    rw [hp]
    dsimp only
    rw [if_neg (by simp [hlow]), hv]
    simp only [hsub, hu]
    exact ⟨trivial, List.mem_of_find?_eq_some hu,
      by simpa using List.find?_some hu⟩

/-- C1 witness: with one stored user "alice" and a well-formed Bearer
header carrying a fresh token for "alice", identity resolution returns
that stored user; every hypothesis is discharged on this concrete input. -/
theorem get_current_user_resolution_witness :
    get_current_user [⟨1, "alice", "alice@example.com", ⟨[1], 0⟩, .user, 0⟩]
        (some ("Bearer " ++ create_access_token [("sub", .str "alice")] none 0)) 5
      = some ⟨1, "alice", "alice@example.com", ⟨[1], 0⟩, .user, 0⟩
    ∧ (⟨1, "alice", "alice@example.com", ⟨[1], 0⟩, .user, 0⟩ : User)
        ∈ [(⟨1, "alice", "alice@example.com", ⟨[1], 0⟩, .user, 0⟩ : User)]
    ∧ (⟨1, "alice", "alice@example.com", ⟨[1], 0⟩, .user, 0⟩ : User).username
        = "alice" :=
  (get_current_user_resolution
      [⟨1, "alice", "alice@example.com", ⟨[1], 0⟩, .user, 0⟩]
      (some ("Bearer " ++ create_access_token [("sub", .str "alice")] none 0))
      5).2.2.2.2.2.2.2
    ("Bearer " ++ create_access_token [("sub", .str "alice")] none 0)
    "Bearer" (create_access_token [("sub", .str "alice")] none 0)
    [("exp", .num 172800), ("sub", .str "alice")] "alice"
    ⟨1, "alice", "alice@example.com", ⟨[1], 0⟩, .user, 0⟩
    rfl (by decide) (by decide) (by decide) (by decide) (by decide)

/-! ## Claim C5 -/

/-- C5: POST /user fails with a 400 error and leaves the user table
unchanged when some stored user already has the requested username or
email; otherwise it appends exactly one new user and returns the
`UserResponse` shaping of id, username, email, role and created_at — a
shaping that ignores the hashed password entirely. -/
theorem create_user_endpoint_behavior (db : List User) (user : UserCreate)
    (newId now salt : Nat) :
    ((∃ u ∈ db, u.username = user.username) ∨ (∃ u ∈ db, u.email = user.email) →
      ∃ e : HTTPException, e.status_code = 400
        ∧ create_user_endpoint db user newId now salt = (.error e, db))
    ∧ ((∀ u ∈ db, u.username ≠ user.username ∧ u.email ≠ user.email) →
      create_user_endpoint db user newId now salt
        = (.ok ⟨user.username, user.email, newId, user.role, now⟩,
           db ++ [⟨newId, user.username, user.email,
                   get_password_hash user.password salt, user.role, now⟩]))
    ∧ (∀ (u : User) (h : BcryptHash),
        toUserResponse { u with hashed_password := h } = toUserResponse u) := by
  refine ⟨?_, ?_, fun u h => rfl⟩
  · intro hdup
    unfold create_user_endpoint
    cases hn : get_user_by_username db user.username with
    | some u0 => exact ⟨⟨400, "Username already registered"⟩, rfl, rfl⟩
    | none =>
      cases he : db.find? (fun u => u.email == user.email) with
      | some u0 => exact ⟨⟨400, "Email already registered"⟩, rfl, rfl⟩
      | none =>
        exfalso
        rcases hdup with ⟨u0, hmem, heq⟩ | ⟨u0, hmem, heq⟩
        · have hne := List.find?_eq_none.mp hn u0 hmem
          simp [heq] at hne
        · have hne := List.find?_eq_none.mp he u0 hmem
          simp [heq] at hne
  · intro hok
    have hn : get_user_by_username db user.username = none :=
      List.find?_eq_none.mpr (fun u hu => by simp [(hok u hu).1])
    have he : db.find? (fun u => u.email == user.email) = none :=
      List.find?_eq_none.mpr (fun u hu => by simp [(hok u hu).2])
    unfold create_user_endpoint
    rw [hn]
    dsimp only
    rw [he]
    rfl

/-- C5 witness: registering "bob" next to a stored "alice" succeeds and
appends one record; re-registering the username "alice" yields a 400. -/
theorem create_user_endpoint_behavior_witness :
    create_user_endpoint
        [⟨1, "alice", "alice@example.com", ⟨[1], 0⟩, .user, 0⟩]
        ⟨"bob", "bob@example.com", "secret1", .user⟩ 2 9 4
      = (.ok ⟨"bob", "bob@example.com", 2, .user, 9⟩,
         [⟨1, "alice", "alice@example.com", ⟨[1], 0⟩, .user, 0⟩,
          ⟨2, "bob", "bob@example.com", get_password_hash "secret1" 4, .user, 9⟩])
    ∧ ∃ e : HTTPException, e.status_code = 400
      ∧ create_user_endpoint
          [⟨1, "alice", "alice@example.com", ⟨[1], 0⟩, .user, 0⟩]
          ⟨"alice", "new@example.com", "secret1", .user⟩ 2 9 4
        = (.error e, [⟨1, "alice", "alice@example.com", ⟨[1], 0⟩, .user, 0⟩]) := by
  constructor
  · exact (create_user_endpoint_behavior
      [⟨1, "alice", "alice@example.com", ⟨[1], 0⟩, .user, 0⟩]
      ⟨"bob", "bob@example.com", "secret1", .user⟩ 2 9 4).2.1
      (by intro u hu; refine ⟨?_, ?_⟩ <;> simp at hu <;> subst hu <;> decide)
  · exact (create_user_endpoint_behavior
      [⟨1, "alice", "alice@example.com", ⟨[1], 0⟩, .user, 0⟩]
      ⟨"alice", "new@example.com", "secret1", .user⟩ 2 9 4).1
      (.inl ⟨⟨1, "alice", "alice@example.com", ⟨[1], 0⟩, .user, 0⟩,
        by simp, rfl⟩)

/-! ## Claim C6 -/

/-- C6: for an authenticated caller, PATCH and DELETE on an advertisement
return 404 (state unchanged) when the id is absent; 403 (state unchanged)
when the caller is neither the owner nor an admin; and otherwise perform
the update (field application on the stored row) or the deletion and
succeed. -/
theorem advertisement_mutation_authorization (db : List Advertisement)
    (advertisement_id : Nat) (upd : AdvertisementUpdate) (caller : User) :
    (get_advertisement db advertisement_id = none →
      update_advertisement_endpoint db advertisement_id upd caller
          = (.error ⟨404, "Advertisement not found"⟩, db)
        ∧ delete_advertisement_endpoint db advertisement_id caller
          = (.error ⟨404, "Advertisement not found"⟩, db))
    ∧ (∀ ad, get_advertisement db advertisement_id = some ad →
        ad.owner_id ≠ caller.id → caller.role ≠ .admin →
        update_advertisement_endpoint db advertisement_id upd caller
            = (.error ⟨403, "Not enough permissions to update this advertisement"⟩, db)
          ∧ delete_advertisement_endpoint db advertisement_id caller
            = (.error ⟨403, "Not enough permissions to delete this advertisement"⟩, db))
    ∧ (∀ ad, get_advertisement db advertisement_id = some ad →
        (ad.owner_id = caller.id ∨ caller.role = .admin) →
        update_advertisement_endpoint db advertisement_id upd caller
            = (.ok (applyAdUpdate ad upd),
               replaceFirst (fun x => x.id == advertisement_id)
                 (applyAdUpdate ad upd) db)
          ∧ delete_advertisement_endpoint db advertisement_id caller
            = (.ok "Advertisement deleted successfully",
               removeFirst (fun x => x.id == advertisement_id) db)) := by
  refine ⟨?_, ?_, ?_⟩
  · intro h
    constructor
    · unfold update_advertisement_endpoint
      rw [h]
    · unfold delete_advertisement_endpoint
      rw [h]
  · intro ad h hown hrole
    constructor
    · unfold update_advertisement_endpoint
      rw [h]
      dsimp only
      rw [if_pos ⟨hown, hrole⟩]
    · unfold delete_advertisement_endpoint
      rw [h]
      dsimp only
      rw [if_pos ⟨hown, hrole⟩]
  · intro ad h hperm
    have hcond : ¬(ad.owner_id ≠ caller.id ∧ caller.role ≠ UserRole.admin) := by
      tauto
    constructor
    · unfold update_advertisement_endpoint
      rw [h]
      dsimp only
      rw [if_neg hcond]
      unfold crud_update_advertisement
      rw [h]
    · unfold delete_advertisement_endpoint
      rw [h]
      dsimp only
      rw [if_neg hcond]
      unfold crud_delete_advertisement
      rw [h]

/-- C6 witness: on a one-advertisement table owned by user 1, a non-admin
stranger (id 2) gets 403 from both PATCH and DELETE, and the owner's
DELETE removes the row. -/
theorem advertisement_mutation_authorization_witness :
    (update_advertisement_endpoint [⟨7, "car", "nice", 30, 0, 1⟩] 7
        ⟨some "bike", none, none⟩ ⟨2, "mallory", "m@example.com", ⟨[2], 0⟩, .user, 0⟩
      = (.error ⟨403, "Not enough permissions to update this advertisement"⟩,
         [⟨7, "car", "nice", 30, 0, 1⟩]))
    ∧ (delete_advertisement_endpoint [⟨7, "car", "nice", 30, 0, 1⟩] 7
        ⟨1, "alice", "alice@example.com", ⟨[1], 0⟩, .user, 0⟩
      = (.ok "Advertisement deleted successfully", [])) := by
  constructor
  · exact ((advertisement_mutation_authorization [⟨7, "car", "nice", 30, 0, 1⟩] 7
      ⟨some "bike", none, none⟩ ⟨2, "mallory", "m@example.com", ⟨[2], 0⟩, .user, 0⟩).2.1
      ⟨7, "car", "nice", 30, 0, 1⟩ (by decide) (by decide) (by decide)).1
  · exact ((advertisement_mutation_authorization [⟨7, "car", "nice", 30, 0, 1⟩] 7
      ⟨some "bike", none, none⟩ ⟨1, "alice", "alice@example.com", ⟨[1], 0⟩, .user, 0⟩).2.2
      ⟨7, "car", "nice", 30, 0, 1⟩ (by decide) (.inl (by decide))).2

/-! ## Claim C7 -/

/-- C7: `search_advertisements` returns exactly the stored advertisements
satisfying every supplied filter — title and description by case-sensitive
substring match, the price bounds inclusively — with unsupplied filters
imposing no constraint (so no filters returns the whole table). -/
theorem search_advertisements_filters (db : List Advertisement)
    (title description : Option String) (min_price max_price : Option Rat) :
    search_advertisements db title description min_price max_price
      = db.filter (specAdMatches title description min_price max_price) := by
  unfold search_advertisements specAdMatches
  cases title <;> cases description <;> cases min_price <;> cases max_price <;>
    dsimp only <;> (try split_ifs) <;>
    simp_all [List.filter_filter, isInfixB_nil, not_not,
      Bool.and_assoc, Bool.and_comm, Bool.and_left_comm]

/-! ## Claim C8 -/

/-- C8: updating an existing user with a request supplying only `email`
replaces exactly that user's email, leaving username, role, hashed
password, id and creation time of the stored record untouched (and only
the matching row of the table changes). -/
theorem update_user_email_only_frame (db : List User) (user_id : Nat)
    (em : String) (salt : Nat) (u : User)
    (h : get_user_by_id db user_id = some u) :
    ∃ u2, crud_update_user db user_id ⟨none, some em, none⟩ salt
        = (some u2, replaceFirst (fun x => x.id == user_id) u2 db)
      ∧ u2.email = em ∧ u2.username = u.username ∧ u2.role = u.role
      ∧ u2.hashed_password = u.hashed_password ∧ u2.id = u.id
      ∧ u2.created_at = u.created_at := by
  refine ⟨{ u with email := em }, ?_, rfl, rfl, rfl, rfl, rfl, rfl⟩
  unfold crud_update_user
  rw [h]
  rfl

/-- C8 witness: an email-only update of the stored user "alice" changes
the email and nothing else. -/
theorem update_user_email_only_frame_witness :
    ∃ u2, crud_update_user
        [⟨1, "alice", "alice@example.com", ⟨[1], 0⟩, .user, 0⟩] 1
        ⟨none, some "new@example.com", none⟩ 5
        = (some u2, replaceFirst (fun x => x.id == 1) u2
            [⟨1, "alice", "alice@example.com", ⟨[1], 0⟩, .user, 0⟩])
      ∧ u2.email = "new@example.com"
      ∧ u2.username = (⟨1, "alice", "alice@example.com", ⟨[1], 0⟩, .user, 0⟩ : User).username
      ∧ u2.role = (⟨1, "alice", "alice@example.com", ⟨[1], 0⟩, .user, 0⟩ : User).role
      ∧ u2.hashed_password
          = (⟨1, "alice", "alice@example.com", ⟨[1], 0⟩, .user, 0⟩ : User).hashed_password
      ∧ u2.id = (⟨1, "alice", "alice@example.com", ⟨[1], 0⟩, .user, 0⟩ : User).id
      ∧ u2.created_at
          = (⟨1, "alice", "alice@example.com", ⟨[1], 0⟩, .user, 0⟩ : User).created_at :=
  update_user_email_only_frame
    [⟨1, "alice", "alice@example.com", ⟨[1], 0⟩, .user, 0⟩] 1
    "new@example.com" 5
    ⟨1, "alice", "alice@example.com", ⟨[1], 0⟩, .user, 0⟩ (by decide)
